import Mathlib

/-!
Shallow embedding of the async cell of `src/qt-async-lib/values/AsyncValueTemplate.h`
(class `AsyncValueTemplate`) together with the state declared in
`src/qt-async-lib/values/AsyncValueBase.h` (enum `ASYNC_VALUE_STATE`, the
`m_state` tag, the `Content` slots `value`/`error`, the owned `m_progress`
instance and the `Waiter`/`m_waiter` coordination data).

Modelling decisions:
* machine state that matters to the claims is the tuple
  `(m_state, m_content.value, m_content.error, m_progress)`; the two
  `std::unique_ptr` slots of `Content` and the `m_progress` pointer are
  `Option`s, where `none` is the null pointer;
* a progress instance is identified by its address; addresses are `Nat`,
  so `m_progress : Option Nat` and a raw `ProgressType*` argument is an
  `Option Nat` (`none` = `nullptr`).  The pointer comparison
  `progress != m_progress.get()` in `stopProgress` becomes comparison of
  these identities;
* a callable argument (`valuePred`/`errorPred`/`progressPred`) is not
  modelled as a function: instead every `access` variant returns the list
  of invocations it performs, so "invokes exactly the matching callable
  once with the current payload" is an equation about that list;
* the blocking `wait` is modelled over an explicit trace: the snapshots of
  the cell observed at its successive check points (fast-path check,
  locked re-check, and the snapshot at each wakeup of
  `m_waiter->waitValue`).  The source performs a single
  `waitValue.wait(&m_writeLock)` followed by a single re-check
  (`Q_ASSERT(res && "access should succeed")`), so only the head of the
  wakeup trace is consumed;
* the multi-thread teardown protocol of `wait` (primary waiter plus
  sub-waiters, lines 251-298, and `Waiter` of `AsyncValueBase.h`) is
  embedded as a small-step transition system further below.
-/

/-- Embeds `enum class ASYNC_VALUE_STATE` of `AsyncValueBase.h`. -/
inductive ASYNC_VALUE_STATE : Type
  | VALUE
  | ERROR
  | PROGRESS
  deriving DecidableEq, Repr

open ASYNC_VALUE_STATE

/-- The cell data of `AsyncValueTemplate<V, E, P>`: the `m_state` tag, the two
`Content` slots and the owned progress instance (identified by its address). -/
structure AsyncValueTemplate (V E : Type) : Type where
  m_state : ASYNC_VALUE_STATE
  value : Option V
  error : Option E
  m_progress : Option Nat
  deriving DecidableEq, Repr

namespace AsyncValueTemplate

variable {V E : Type}

/-- The constructor `AsyncValueTemplate(parent, AsyncInitByValue, args...)`:
starts in state `VALUE` holding the given value, no error, no progress. -/
def mkByValue (v : V) : AsyncValueTemplate V E :=
  ⟨VALUE, some v, none, none⟩

/-- The constructor `AsyncValueTemplate(parent, AsyncInitByError, args...)`:
starts in state `ERROR` holding the given error, no value, no progress. -/
def mkByError (e : E) : AsyncValueTemplate V E :=
  ⟨ERROR, none, some e, none⟩

/-- `moveValue` (lines 57-75): under the write and content locks, the whole
`Content` is moved out into `oldContent` (emptying both slots), the value slot
is filled with the new value and the tag is set to `VALUE`.  `m_progress` is
not touched.  The function returns `void`: it always succeeds. -/
def moveValue (c : AsyncValueTemplate V E) (v : V) : AsyncValueTemplate V E :=
  ⟨VALUE, some v, none, c.m_progress⟩

/-- `moveError` (lines 90-108): symmetric to `moveValue`, filling the error
slot and setting the tag to `ERROR`.  `m_progress` is not touched. -/
def moveError (c : AsyncValueTemplate V E) (e : E) : AsyncValueTemplate V E :=
  ⟨ERROR, none, some e, c.m_progress⟩

/-- `startProgressMove` (lines 116-139): if the state is already `PROGRESS`
the call asserts and returns `nullptr` without mutating anything.  Otherwise
`Content` is moved out (emptying both slots), the new progress instance is
installed (replacing any retained one) and the tag becomes `PROGRESS`; the
returned handle is `m_progress.get()`.  Result: (cell after, returned handle). -/
def startProgressMove (c : AsyncValueTemplate V E) (p : Nat) :
    AsyncValueTemplate V E × Option Nat :=
  if c.m_state = PROGRESS then
    (c, none)
  else
    (⟨PROGRESS, none, none, some p⟩, some p)

/-- `stopProgress` (lines 141-159): if a non-null handle is supplied and it
differs from `m_progress.get()`, assert and return `false` with no mutation;
if the state is `PROGRESS`, assert ("No value or error assigned") and return
`false` with no mutation; otherwise clear `m_progress` and return `true`.
Result: (cell after, returned bool). -/
def stopProgress (c : AsyncValueTemplate V E) (progress : Option Nat) :
    AsyncValueTemplate V E × Bool :=
  if progress.isSome ∧ progress ≠ c.m_progress then
    (c, false)
  else if c.m_state = PROGRESS then
    (c, false)
  else
    (⟨c.m_state, c.value, c.error, none⟩, true)

/-- One invocation of a caller-supplied callable, recording which callable ran
and with which payload (a progress payload is the instance's identity). -/
inductive Invoked (V E : Type) : Type
  | onValue (v : V)
  | onError (e : E)
  | onProgress (p : Nat)
  deriving DecidableEq, Repr

/-- The three-callable `access(valuePred, errorPred, progressPred)`
(lines 161-180): under the read lock, switch on `m_state` and invoke the
matching callable with the current payload.  The result is the list of
invocations performed.  (The source dereferences the slot unconditionally;
a `none` slot for the current tag would be undefined behaviour, modelled
here as no invocation — the `WF` invariant below rules it out.) -/
def access3 (c : AsyncValueTemplate V E) : List (Invoked V E) :=
  match c.m_state with
  | VALUE =>
    match c.value with
    | some v => [.onValue v]
    | none => []
  | ERROR =>
    match c.error with
    | some e => [.onError e]
    | none => []
  | PROGRESS =>
    match c.m_progress with
    | some p => [.onProgress p]
    | none => []

/-- The two-callable `access(valuePred, errorPred) -> bool` (lines 182-200):
invokes the value or error callable when settled and returns whether the
state was `VALUE` or `ERROR`. -/
def access2 (c : AsyncValueTemplate V E) : List (Invoked V E) × Bool :=
  match c.m_state with
  | VALUE =>
    (match c.value with
     | some v => [.onValue v]
     | none => [], true)
  | ERROR =>
    (match c.error with
     | some e => [.onError e]
     | none => [], true)
  | PROGRESS => ([], false)

/-- The one-callable `access(valuePred) -> bool` (lines 202-212): invokes the
callable only when the state is `VALUE` and returns whether it matched. -/
def access1 (c : AsyncValueTemplate V E) : List (Invoked V E) × Bool :=
  if c.m_state ≠ VALUE then
    ([], false)
  else
    (match c.value with
     | some v => [.onValue v]
     | none => [], true)

/-- `accessError(errorPred) -> bool` (lines 214-224). -/
def accessError (c : AsyncValueTemplate V E) : List (Invoked V E) × Bool :=
  if c.m_state ≠ ERROR then
    ([], false)
  else
    (match c.error with
     | some e => [.onError e]
     | none => [], true)

/-- `accessProgress(progressPred) -> bool` (lines 226-236). -/
def accessProgress (c : AsyncValueTemplate V E) : List (Invoked V E) × Bool :=
  if c.m_state ≠ PROGRESS then
    ([], false)
  else
    (match c.m_progress with
     | some p => [.onProgress p]
     | none => [], true)

/-- Cell invariant: the payload slot named by the current tag is non-null, so
the dereferences `*m_content.value`, `*m_content.error`, `*m_progress`
performed by the `access` family are defined. -/
def WF (c : AsyncValueTemplate V E) : Prop :=
  (c.m_state = VALUE → c.value.isSome) ∧
  (c.m_state = ERROR → c.error.isSome) ∧
  (c.m_state = PROGRESS → c.m_progress.isSome)

instance (c : AsyncValueTemplate V E) : Decidable (WF c) := by
  unfold WF
  infer_instance

/-- Outcome of one call to `wait(valuePred, errorPred)`: the invocations
performed, whether the calling thread blocked on `waitValue`, and whether it
registered with the cell's `Waiter` (as primary or sub-waiter). -/
structure WaitOutcome (V E : Type) : Type where
  invoked : List (Invoked V E)
  blocked : Bool
  registeredWaiter : Bool
  deriving DecidableEq, Repr

/-- `wait(valuePred, errorPred)` (lines 238-298) over an explicit trace of
cell snapshots: `c1` is the snapshot at the unlocked fast-path check
(line 242), `c2` the snapshot at the re-check under `m_writeLock` (line 248),
and `wakes` lists the snapshot at each successive wakeup of
`m_waiter->waitValue`.  The source blocks exactly once
(`m_waiter->waitValue.wait(&m_writeLock)`, line 274 or 293) and then performs
a single re-check whose success is only asserted
(`Q_ASSERT(res && "access should succeed")`), so precisely the head of
`wakes` is consumed; `none` means no wakeup ever arrives and the thread stays
blocked. -/
def waitOnTrace (c1 c2 : AsyncValueTemplate V E)
    (wakes : List (AsyncValueTemplate V E)) : Option (WaitOutcome V E) :=
  let r1 := access2 c1
  if r1.2 then some ⟨r1.1, false, false⟩
  else
    let r2 := access2 c2
    if r2.2 then some ⟨r2.1, false, false⟩
    else
      match wakes with
      | [] => none
      | w :: _ => some ⟨(access2 w).1, true, true⟩

/-- Modelled from the spec: the slow path of `waitSettled` "blocks on the
value-arrived condition variable (looping on spurious wakeup until the
fast-path check actually succeeds)".  This variant keeps consuming wakeups
until the settled check succeeds, invoking the matching callable at the
first settled snapshot; `none` means every supplied wakeup was spurious and
the thread is still blocked. -/
def specLoopWakes (wakes : List (AsyncValueTemplate V E)) :
    Option (List (Invoked V E)) :=
  match wakes with
  | [] => none
  | w :: rest =>
    let rw := access2 w
    if rw.2 then some rw.1 else specLoopWakes rest

/-- Repeated calls of `wait` on one cell: `wait` mutates no cell field on the
fast path (it only reads under the locks), so every one of the `n` calls
observes the same snapshots; the list collects their outcomes. -/
def waitRepeated (c1 c2 : AsyncValueTemplate V E)
    (wakes : List (AsyncValueTemplate V E)) (n : Nat) :
    List (Option (WaitOutcome V E)) :=
  List.replicate n (waitOnTrace c1 c2 wakes)

/-- Modelled from the spec (continued): the full spec-side `waitSettled` with
the looping slow path. -/
def waitSpecLoop (c1 c2 : AsyncValueTemplate V E)
    (wakes : List (AsyncValueTemplate V E)) : Option (WaitOutcome V E) :=
  let r1 := access2 c1
  if r1.2 then some ⟨r1.1, false, false⟩
  else
    let r2 := access2 c2
    if r2.2 then some ⟨r2.1, false, false⟩
    else (specLoopWakes wakes).map (fun inv => ⟨inv, true, true⟩)

end AsyncValueTemplate

/-!
Transition system for the multi-waiter teardown protocol of `wait`
(lines 251-298 of `AsyncValueTemplate.h`, with `struct Waiter` of
`AsyncValueBase.h`: a `waitValue` condition variable, a `quint16 subWaiters`
counter and a `waitSubWaiters` condition variable, all used under
`m_writeLock`).

Scenario embedded: one primary waiter and `k` sub-waiters are blocked on
`m_waiter->waitValue` while the cell is in `PROGRESS`; a mutator thread then
runs `moveValue` (settling the cell to `VALUE` and calling
`m_waiter->waitValue.wakeAll()`).  A configuration describes the instant just
after that `wakeAll`: every waiter is runnable and races to reacquire
`m_writeLock`; since the whole post-wake section of each waiter runs under
`m_writeLock` (condition-variable waits release it), each waiter's section is
one atomic transition and executions are arbitrary interleavings of these
transitions.

Per the source, after its wakeup each waiter re-checks
`access(valuePred, errorPred)` — which now succeeds and invokes the value
callable with the new value — and then runs its scope-exit block:
* a sub-waiter (lines 281-287) decrements `subWaiters` (a `quint16`, hence
  modulo `2^16`) and, if the counter reached zero, wakes `waitSubWaiters`;
* the primary (lines 258-268) checks `subWaiters > 0`; if so it blocks on
  `waitSubWaiters` (woken exactly when the counter reaches zero) and on
  waking asserts the counter is zero; in either case it then unregisters the
  waiter (`m_waiter = nullptr`) and its stack-allocated `Waiter` dies.
-/

/-- Decrement of the `quint16` counter `subWaiters` (`subWaiters -= 1`). -/
def dec16 (n : Nat) : Nat := (n + 65535) % 65536

/-- Control point of the primary waiter after the mutator's `wakeAll`. -/
inductive PrimPhase : Type
  | wokenPending
  | drainBlocked
  | finished
  deriving DecidableEq, Repr

/-- Configuration of the teardown protocol just after `wakeAll`:
the primary's control point, the number of woken sub-waiters that have not
yet run their post-wake section, the `Waiter.subWaiters` counter, whether
`m_waiter` is still published (non-null), and how many value-callable
invocations with the new value have happened so far. -/
structure WaitCfg : Type where
  primary : PrimPhase
  subsPending : Nat
  subWaiters : Nat
  waiterPublished : Bool
  delivered : Nat
  deriving DecidableEq, Repr

/-- A woken sub-waiter's post-wake section (lines 281-296): re-check
delivers the value, then `subWaiters -= 1` and, when the counter hits zero,
`waitSubWaiters.wakeAll()` (modelled by the enabling guard of
`primDrainExit`). -/
def subSteps (c : WaitCfg) : List WaitCfg :=
  if c.subsPending > 0 then
    [⟨c.primary, c.subsPending - 1, dec16 c.subWaiters, c.waiterPublished,
      c.delivered + 1⟩]
  else []

/-- The primary waiter's post-wake sections.  From `wokenPending`
(lines 274-277 then the scope-exit block 258-268): re-check delivers the
value; then if `subWaiters > 0` it blocks on `waitSubWaiters`, otherwise it
unregisters (`m_waiter = nullptr`) and finishes.  From `drainBlocked` it can
resume only once the counter is zero (the last sub-waiter's `wakeAll`),
then unregisters and finishes. -/
def primSteps (c : WaitCfg) : List WaitCfg :=
  match c.primary with
  | .wokenPending =>
    if c.subWaiters > 0 then
      [⟨.drainBlocked, c.subsPending, c.subWaiters, c.waiterPublished,
        c.delivered + 1⟩]
    else
      [⟨.finished, c.subsPending, c.subWaiters, false, c.delivered + 1⟩]
  | .drainBlocked =>
    if c.subWaiters = 0 then
      [⟨.finished, c.subsPending, c.subWaiters, false, c.delivered⟩]
    else []
  | .finished => []

/-- All transitions enabled in a configuration. -/
def stepsFrom (c : WaitCfg) : List WaitCfg :=
  subSteps c ++ primSteps c

/-- One interleaving step of the teardown protocol. -/
def WaitStep (c c' : WaitCfg) : Prop :=
  c' ∈ stepsFrom c

instance (c c' : WaitCfg) : Decidable (WaitStep c c') := by
  unfold WaitStep
  infer_instance

/-- The configuration right after a mutator settles the cell and calls
`waitValue.wakeAll()` with one primary and `k` sub-waiters blocked:
`subWaiters` holds `k` increments of the `quint16` counter, `m_waiter` is
published, and no waiter has re-checked yet. -/
def initCfg (k : Nat) : WaitCfg :=
  ⟨.wokenPending, k, k % 65536, true, 0⟩

/-- A configuration with no enabled transition. -/
def Stuck (c : WaitCfg) : Prop :=
  stepsFrom c = []

instance (c : WaitCfg) : Decidable (Stuck c) := by
  unfold Stuck
  infer_instance

/-- Reachability along interleaving steps. -/
def ReachWait (a b : WaitCfg) : Prop :=
  Relation.ReflTransGen WaitStep a b

/-- Rank of the primary's control point, used by the termination measure. -/
def primRank : PrimPhase → Nat
  | .wokenPending => 2
  | .drainBlocked => 1
  | .finished => 0

/-- Number of value-callable invocations the primary still owes (its re-check
at line 276 has not run yet exactly in phase `wokenPending`). -/
def primPending : PrimPhase → Nat
  | .wokenPending => 1
  | .drainBlocked => 0
  | .finished => 0

/-- Termination measure for the teardown protocol. -/
def cfgMeasure (c : WaitCfg) : Nat :=
  2 * c.subsPending + primRank c.primary

/-- Inductive invariant of the teardown protocol (for fewer than `2^16`
sub-waiters, the range of the `quint16` counter): the counter agrees with
the number of pending sub-waiters; deliveries plus pending re-checks account
for every one of the `k + 1` waiters; the waiter stays published exactly
until the primary finishes; and the primary finishes only after all
sub-waiters have drained. -/
def WaitInv (k : Nat) (c : WaitCfg) : Prop :=
  c.subWaiters = c.subsPending ∧
  c.subsPending < 65536 ∧
  c.delivered + c.subsPending + primPending c.primary = k + 1 ∧
  c.waiterPublished = (decide (c.primary ≠ .finished)) ∧
  (c.primary = .finished → c.subsPending = 0)

theorem dec16_of_pos {n : Nat} (h0 : 0 < n) (hlt : n < 65536) :
    dec16 n = n - 1 := by
  unfold dec16
  omega

theorem mem_subSteps {c c' : WaitCfg} (h : c' ∈ subSteps c) :
    0 < c.subsPending ∧
      c' = ⟨c.primary, c.subsPending - 1, dec16 c.subWaiters,
        c.waiterPublished, c.delivered + 1⟩ := by
  unfold subSteps at h
  split at h
  next hpos => exact ⟨hpos, List.mem_singleton.mp h⟩
  next => simp at h

theorem mem_primSteps {c c' : WaitCfg} (h : c' ∈ primSteps c) :
    (c.primary = .wokenPending ∧ 0 < c.subWaiters ∧
      c' = ⟨.drainBlocked, c.subsPending, c.subWaiters, c.waiterPublished,
        c.delivered + 1⟩) ∨
    (c.primary = .wokenPending ∧ c.subWaiters = 0 ∧
      c' = ⟨.finished, c.subsPending, c.subWaiters, false, c.delivered + 1⟩) ∨
    (c.primary = .drainBlocked ∧ c.subWaiters = 0 ∧
      c' = ⟨.finished, c.subsPending, c.subWaiters, false, c.delivered⟩) := by
  unfold primSteps at h
  split at h
  next hp =>
    split at h
    next hpos => exact Or.inl ⟨hp, hpos, List.mem_singleton.mp h⟩
    next hz =>
      exact Or.inr (Or.inl ⟨hp, by omega, List.mem_singleton.mp h⟩)
  next hp =>
    split at h
    next hz => exact Or.inr (Or.inr ⟨hp, hz, List.mem_singleton.mp h⟩)
    next => simp at h
  next hp => simp at h

theorem waitInv_initCfg {k : Nat} (hk : k < 65536) : WaitInv k (initCfg k) := by
  unfold WaitInv initCfg
  simp only [primPending]
  refine ⟨Nat.mod_eq_of_lt hk, hk, by omega, rfl, ?_⟩
  intro h
  exact absurd h (by decide)

theorem waitInv_step {k : Nat} {c c' : WaitCfg} (h : WaitInv k c)
    (hs : WaitStep c c') : WaitInv k c' := by
  obtain ⟨prim, sp, sw, wp, d⟩ := c
  obtain ⟨h1, h2, h3, h4, h5⟩ := h
  simp only at h1 h2 h3 h4 h5
  rcases List.mem_append.mp hs with hm | hm
  · obtain ⟨hpos, rfl⟩ := mem_subSteps hm
    simp only at hpos
    have hdec : dec16 sw = sp - 1 := by
      rw [h1]
      exact dec16_of_pos hpos h2
    unfold WaitInv
    simp only
    cases prim with
    | wokenPending =>
      simp only [primPending] at h3 ⊢
      exact ⟨hdec, by omega, by omega, h4, fun hf => absurd hf (by decide)⟩
    | drainBlocked =>
      simp only [primPending] at h3 ⊢
      exact ⟨hdec, by omega, by omega, h4, fun hf => absurd hf (by decide)⟩
    | finished =>
      simp only [primPending] at h3 ⊢
      exact ⟨hdec, by omega, by omega, h4, fun _ => by
        have := h5 rfl
        omega⟩
  · rcases mem_primSteps hm with ⟨hp, hpos, rfl⟩ | ⟨hp, hz, rfl⟩ | ⟨hp, hz, rfl⟩
    · simp only at hp
      subst hp
      unfold WaitInv
      simp only [primPending] at h3 h4 ⊢
      exact ⟨h1, h2, by omega, h4, fun hf => absurd hf (by decide)⟩
    · simp only at hp hz
      subst hp
      unfold WaitInv
      simp only [primPending] at h3 ⊢
      exact ⟨h1, h2, by omega, rfl, fun _ => by
        rw [h1] at hz
        omega⟩
    · simp only at hp hz
      subst hp
      unfold WaitInv
      simp only [primPending] at h3 ⊢
      exact ⟨h1, h2, by omega, rfl, fun _ => by
        rw [h1] at hz
        omega⟩

theorem waitInv_reach {k : Nat} (hk : k < 65536) {c : WaitCfg}
    (h : ReachWait (initCfg k) c) : WaitInv k c := by
  induction h with
  | refl => exact waitInv_initCfg hk
  | tail _ hstep ih => exact waitInv_step ih hstep

theorem waitStep_measure {c c' : WaitCfg} (hs : WaitStep c c') :
    cfgMeasure c' < cfgMeasure c := by
  obtain ⟨prim, sp, sw, wp, d⟩ := c
  rcases List.mem_append.mp hs with hm | hm
  · obtain ⟨hpos, rfl⟩ := mem_subSteps hm
    simp only at hpos
    unfold cfgMeasure
    simp only
    omega
  · rcases mem_primSteps hm with ⟨hp, hpos, rfl⟩ | ⟨hp, hz, rfl⟩ | ⟨hp, hz, rfl⟩
    · simp only at hp
      subst hp
      unfold cfgMeasure primRank
      simp only
      omega
    · simp only at hp
      subst hp
      unfold cfgMeasure primRank
      simp only
      omega
    · simp only at hp
      subst hp
      unfold cfgMeasure primRank
      simp only
      omega

theorem stuck_final {k : Nat} {c : WaitCfg} (hinv : WaitInv k c)
    (hst : Stuck c) :
    c.primary = .finished ∧ c.subsPending = 0 ∧ c.delivered = k + 1 ∧
      c.waiterPublished = false := by
  obtain ⟨prim, sp, sw, wp, d⟩ := c
  obtain ⟨h1, h2, h3, h4, h5⟩ := hinv
  simp only at h1 h2 h3 h4 h5 ⊢
  obtain ⟨hsub, hprim⟩ := List.append_eq_nil.mp hst
  have hsp : sp = 0 := by
    unfold subSteps at hsub
    split at hsub
    next h => simp at hsub
    next h => simp only at h; omega
  have hfin : prim = .finished := by
    cases prim with
    | wokenPending =>
      exfalso
      unfold primSteps at hprim
      simp only at hprim
      split at hprim <;> simp at hprim
    | drainBlocked =>
      exfalso
      unfold primSteps at hprim
      simp only at hprim
      split at hprim
      next => simp at hprim
      next hz => exact hz (by omega)
    | finished => rfl
  subst hfin
  simp only [primPending] at h3
  refine ⟨rfl, hsp, by omega, ?_⟩
  rw [h4]
  rfl

theorem notStuck_exists_step {c : WaitCfg} (h : ¬ Stuck c) :
    ∃ c', WaitStep c c' := by
  unfold Stuck at h
  unfold WaitStep
  exact List.exists_mem_of_ne_nil _ h

/-!
Helper lemmas about the embedded operations, shared by the claim theorems.
-/

namespace AsyncValueTemplate

variable {V E : Type}

theorem WF_mkByValue (v : V) : WF (mkByValue v : AsyncValueTemplate V E) :=
  ⟨fun _ => rfl, fun h => ASYNC_VALUE_STATE.noConfusion h, fun h => ASYNC_VALUE_STATE.noConfusion h⟩

theorem WF_mkByError (e : E) : WF (mkByError e : AsyncValueTemplate V E) :=
  ⟨fun h => ASYNC_VALUE_STATE.noConfusion h, fun _ => rfl, fun h => ASYNC_VALUE_STATE.noConfusion h⟩

theorem WF_moveValue (c : AsyncValueTemplate V E) (v : V) :
    WF (moveValue c v) :=
  ⟨fun _ => rfl, fun h => ASYNC_VALUE_STATE.noConfusion h, fun h => ASYNC_VALUE_STATE.noConfusion h⟩

theorem WF_moveError (c : AsyncValueTemplate V E) (e : E) :
    WF (moveError c e) :=
  ⟨fun h => ASYNC_VALUE_STATE.noConfusion h, fun _ => rfl, fun h => ASYNC_VALUE_STATE.noConfusion h⟩

theorem WF_startProgressMove {c : AsyncValueTemplate V E} (hwf : WF c)
    (p : Nat) : WF (startProgressMove c p).1 := by
  unfold startProgressMove
  split
  · exact hwf
  · exact ⟨fun h => ASYNC_VALUE_STATE.noConfusion h, fun h => ASYNC_VALUE_STATE.noConfusion h,
      fun _ => rfl⟩

theorem WF_stopProgress {c : AsyncValueTemplate V E} (hwf : WF c)
    (arg : Option Nat) : WF (stopProgress c arg).1 := by
  unfold stopProgress
  split
  · exact hwf
  · split
    next => exact hwf
    next hnp => exact ⟨fun h => hwf.1 h, fun h => hwf.2.1 h,
      fun h => absurd h hnp⟩

theorem stopProgress_settled {c : AsyncValueTemplate V E} {arg : Option Nat}
    (hnp : c.m_state ≠ ASYNC_VALUE_STATE.PROGRESS)
    (harg : arg = none ∨ arg = c.m_progress) :
    stopProgress c arg = (⟨c.m_state, c.value, c.error, none⟩, true) := by
  unfold stopProgress
  rcases harg with h | h <;> subst h
  · simp [hnp]
  · simp [hnp]

theorem stopProgress_inProgress {c : AsyncValueTemplate V E} {arg : Option Nat}
    (hst : c.m_state = ASYNC_VALUE_STATE.PROGRESS)
    (harg : arg = none ∨ arg = c.m_progress) :
    stopProgress c arg = (c, false) := by
  unfold stopProgress
  rcases harg with h | h <;> subst h
  · simp [hst]
  · simp [hst]

theorem access2_settled {c : AsyncValueTemplate V E}
    (h : c.m_state ≠ ASYNC_VALUE_STATE.PROGRESS) :
    access2 c = (access3 c, true) := by
  unfold access2 access3
  cases hs : c.m_state with
  | VALUE => simp
  | ERROR => simp
  | PROGRESS => exact absurd hs h

theorem access3_length {c : AsyncValueTemplate V E} (hwf : WF c) :
    (access3 c).length = 1 := by
  obtain ⟨w1, w2, w3⟩ := hwf
  unfold access3
  cases hs : c.m_state with
  | VALUE =>
    obtain ⟨v, hv⟩ := Option.isSome_iff_exists.mp (w1 hs)
    simp [hv]
  | ERROR =>
    obtain ⟨e, he⟩ := Option.isSome_iff_exists.mp (w2 hs)
    simp [he]
  | PROGRESS =>
    obtain ⟨p, hp⟩ := Option.isSome_iff_exists.mp (w3 hs)
    simp [hp]

end AsyncValueTemplate

/-!
Claim theorems.
-/

open AsyncValueTemplate

/-- C1 (counterexample): on a cell whose state is not `PROGRESS` — here a
`VALUE` cell that still retains the progress instance installed by an earlier
`startProgressMove` — `stopProgress` with no handle does NOT fail: it returns
`true` and clears the retained progress instance, contradicting the claim
that any non-`PROGRESS` state makes `stopProgress` a failing no-op. -/
theorem asyncC1_counterexample :
    ((moveValue ((startProgressMove (mkByValue 0 : AsyncValueTemplate Nat Nat)
        7).1) 1).m_state ≠ PROGRESS) ∧
    stopProgress
        (moveValue ((startProgressMove (mkByValue 0 : AsyncValueTemplate Nat Nat)
          7).1) 1) none
      = (⟨VALUE, some 1, none, none⟩, true) ∧
    (stopProgress
        (moveValue ((startProgressMove (mkByValue 0 : AsyncValueTemplate Nat Nat)
          7).1) 1) none).1.m_progress
      ≠ (moveValue ((startProgressMove (mkByValue 0 : AsyncValueTemplate Nat Nat)
          7).1) 1).m_progress := by
  decide

/-- C1 (amended): `stopProgress` on a cell whose state is NOT `PROGRESS`,
called with no handle or with a handle equal to the retained progress
instance, succeeds: it returns `true`, clears only the retained progress
instance and leaves the state tag and the value/error content unchanged; the
contract violation returning failure without mutation is `stopProgress` on a
cell whose state IS `PROGRESS`. -/
theorem asyncC1_stopProgress_amended {V E : Type} (c d : AsyncValueTemplate V E)
    (arg : Option Nat) (hnp : c.m_state ≠ PROGRESS)
    (harg : arg = none ∨ arg = c.m_progress) (hd : d.m_state = PROGRESS) :
    stopProgress c arg = (⟨c.m_state, c.value, c.error, none⟩, true) ∧
    stopProgress d none = (d, false) :=
  ⟨stopProgress_settled hnp harg, stopProgress_inProgress hd (Or.inl rfl)⟩

/-- C1 (witness): the amended theorem applied to a fresh `VALUE` cell and to
a cell freshly put into `PROGRESS`. -/
theorem asyncC1_stopProgress_amended_witness :
    ((mkByValue 0 : AsyncValueTemplate Nat Nat).m_state ≠ PROGRESS) ∧
    ((none : Option Nat) = none ∨
      (none : Option Nat) = (mkByValue 0 : AsyncValueTemplate Nat Nat).m_progress) ∧
    ((startProgressMove (mkByValue 0 : AsyncValueTemplate Nat Nat) 7).1.m_state
      = PROGRESS) ∧
    (stopProgress (mkByValue 0 : AsyncValueTemplate Nat Nat) none
        = (⟨VALUE, some 0, none, none⟩, true) ∧
      stopProgress ((startProgressMove (mkByValue 0 : AsyncValueTemplate Nat Nat)
          7).1) none
        = ((startProgressMove (mkByValue 0 : AsyncValueTemplate Nat Nat) 7).1,
            false)) :=
  ⟨by decide, Or.inl rfl, by decide,
    asyncC1_stopProgress_amended (mkByValue 0)
      ((startProgressMove (mkByValue 0) 7).1) none (by decide) (Or.inl rfl)
      (by decide)⟩

/-- C2 (counterexample): `moveValue` on a cell in state `PROGRESS` leaves the
cell in state `VALUE` with the progress instance STILL owned (`m_progress`
is not cleared by `moveValue`/`moveError`), contradicting the claim that
after any operation leaving the cell settled no owned progress instance is
present. -/
theorem asyncC2_counterexample :
    (moveValue ((startProgressMove (mkByValue 0 : AsyncValueTemplate Nat Nat)
        7).1) 1).m_state = VALUE ∧
    (moveValue ((startProgressMove (mkByValue 0 : AsyncValueTemplate Nat Nat)
        7).1) 1).m_progress = some 7 ∧
    (moveValue ((startProgressMove (mkByValue 0 : AsyncValueTemplate Nat Nat)
        7).1) 1).m_progress ≠ none := by
  decide

/-- C2 (amended): the cell owns at most one progress instance at a time (one
slot, replaced only by a successful `startProgressMove`, which fails and
installs nothing when the state is already `PROGRESS`), and in state
`PROGRESS` it always owns one (the `WF` invariant, preserved by every
operation); but `moveValue`/`moveError` leave the owned progress instance in
place — it is retained across settlement until `stopProgress` clears it or a
later `startProgressMove` replaces it. -/
theorem asyncC2_progress_ownership_amended {V E : Type}
    (c : AsyncValueTemplate V E) (v : V) (e : E) (p : Nat) (arg : Option Nat)
    (hwf : WF c) :
    (moveValue c v).m_progress = c.m_progress ∧
    (moveError c e).m_progress = c.m_progress ∧
    (startProgressMove c p).2
      = (if c.m_state = PROGRESS then none else some p) ∧
    (startProgressMove c p).1.m_progress
      = (if c.m_state = PROGRESS then c.m_progress else some p) ∧
    WF (moveValue c v) ∧ WF (moveError c e) ∧
    WF (startProgressMove c p).1 ∧ WF (stopProgress c arg).1 := by
  refine ⟨rfl, rfl, ?_, ?_, WF_moveValue c v, WF_moveError c e,
    WF_startProgressMove hwf p, WF_stopProgress hwf arg⟩
  · by_cases h : c.m_state = PROGRESS <;> simp [startProgressMove, h]
  · by_cases h : c.m_state = PROGRESS <;> simp [startProgressMove, h]

/-- C2 (witness): the amended theorem applied to a fresh `VALUE` cell. -/
theorem asyncC2_progress_ownership_amended_witness :
    WF (mkByValue 0 : AsyncValueTemplate Nat Nat) ∧
    (moveValue (mkByValue 0 : AsyncValueTemplate Nat Nat) 1).m_progress
      = (mkByValue 0 : AsyncValueTemplate Nat Nat).m_progress :=
  ⟨by decide, (asyncC2_progress_ownership_amended (mkByValue 0) 1 2 3 none
    (by decide)).1⟩

/-- C3 (counterexample): the slow path of `wait` does not loop on spurious
wakeup.  On a trace whose first wakeup is spurious (the cell is still in
`PROGRESS`) and whose second wakeup would find the settled value, the code —
which performs a single `waitValue.wait` followed by a single asserted
re-check — returns with NO callable invoked and a failed re-check, while the
spec-described looping waiter would consume the second wakeup and invoke the
value callable exactly once. -/
theorem asyncC3_counterexample :
    waitOnTrace (⟨PROGRESS, none, none, some 1⟩ : AsyncValueTemplate Nat Nat)
        ⟨PROGRESS, none, none, some 1⟩
        [⟨PROGRESS, none, none, some 1⟩, ⟨VALUE, some 5, none, some 1⟩]
      = some ⟨[], true, true⟩ ∧
    (access2 (⟨PROGRESS, none, none, some 1⟩ : AsyncValueTemplate Nat Nat)).2
      = false ∧
    waitSpecLoop (⟨PROGRESS, none, none, some 1⟩ : AsyncValueTemplate Nat Nat)
        ⟨PROGRESS, none, none, some 1⟩
        [⟨PROGRESS, none, none, some 1⟩, ⟨VALUE, some 5, none, some 1⟩]
      = some ⟨[Invoked.onValue 5], true, true⟩ := by
  decide

/-- C3 (amended): the slow path blocks exactly once and performs a single
re-check after its wakeup, asserting — not looping until — its success; when
the snapshot at that (single) wakeup is settled, which is what the
wakeAll-only-after-settling discipline of `moveValue`/`moveError` provides,
the re-check succeeds and the matching callable is invoked exactly once. -/
theorem asyncC3_wait_single_recheck_amended {V E : Type}
    (c1 c2 w : AsyncValueTemplate V E) (rest : List (AsyncValueTemplate V E))
    (h1 : (access2 c1).2 = false) (h2 : (access2 c2).2 = false)
    (hwf : WF w) (hw : w.m_state ≠ PROGRESS) :
    waitOnTrace c1 c2 (w :: rest) = some ⟨access3 w, true, true⟩ ∧
    (access2 w).2 = true ∧ (access3 w).length = 1 := by
  have hs := access2_settled hw
  refine ⟨?_, by rw [hs], access3_length hwf⟩
  unfold waitOnTrace
  simp [h1, h2, hs]

/-- C3 (witness): the amended theorem on a blocked waiter woken once by a
settled `VALUE` snapshot. -/
theorem asyncC3_wait_single_recheck_amended_witness :
    (access2 (⟨PROGRESS, none, none, some 1⟩ : AsyncValueTemplate Nat Nat)).2
      = false ∧
    WF (mkByValue 5 : AsyncValueTemplate Nat Nat) ∧
    ((mkByValue 5 : AsyncValueTemplate Nat Nat).m_state ≠ PROGRESS) ∧
    waitOnTrace (⟨PROGRESS, none, none, some 1⟩ : AsyncValueTemplate Nat Nat)
        ⟨PROGRESS, none, none, some 1⟩ [mkByValue 5]
      = some ⟨access3 (mkByValue 5 : AsyncValueTemplate Nat Nat), true, true⟩ :=
  ⟨by decide, by decide, by decide,
    (asyncC3_wait_single_recheck_amended _ _ _ [] (by decide) (by decide)
      (by decide) (by decide)).1⟩

/-- C4: `moveValue`/`moveError` (the bodies of `setValue`/`setError`) succeed
on every prior state with no returned error (they are total and return no
status), replace the content unconditionally, and afterwards every
access/wait delivers exactly the new payload via the matching path once —
the previously held content is gone (the superseded slot is `none`). -/
theorem asyncC4_set_unconditional_overwrite {V E : Type}
    (c c2 : AsyncValueTemplate V E) (v : V) (e : E)
    (wakes : List (AsyncValueTemplate V E)) :
    moveValue c v = ⟨VALUE, some v, none, c.m_progress⟩ ∧
    access3 (moveValue c v) = [Invoked.onValue v] ∧
    access2 (moveValue c v) = ([Invoked.onValue v], true) ∧
    (moveValue c v).error = none ∧
    waitOnTrace (moveValue c v) c2 wakes
      = some ⟨[Invoked.onValue v], false, false⟩ ∧
    moveError c e = ⟨ERROR, none, some e, c.m_progress⟩ ∧
    access3 (moveError c e) = [Invoked.onError e] ∧
    access2 (moveError c e) = ([Invoked.onError e], true) ∧
    (moveError c e).value = none ∧
    waitOnTrace (moveError c e) c2 wakes
      = some ⟨[Invoked.onError e], false, false⟩ := by
  refine ⟨rfl, rfl, rfl, rfl, ?_, rfl, rfl, rfl, rfl, ?_⟩
  · unfold waitOnTrace
    simp [access2, moveValue]
  · unfold waitOnTrace
    simp [access2, moveError]

/-- C5: starting progress while already in `PROGRESS` is rejected: the first
`startProgressMove` on a settled cell succeeds and returns a handle to the
installed instance; a second call without an intervening settlement returns
the null handle (`none`) and leaves the cell unchanged — still `PROGRESS`,
with the first progress instance still live. -/
theorem asyncC5_double_startProgress {V E : Type}
    (c0 : AsyncValueTemplate V E) (p1 p2 : Nat)
    (h0 : c0.m_state ≠ PROGRESS) :
    (startProgressMove c0 p1).2 = some p1 ∧
    (startProgressMove c0 p1).1.m_state = PROGRESS ∧
    (startProgressMove c0 p1).1.m_progress = some p1 ∧
    startProgressMove (startProgressMove c0 p1).1 p2
      = ((startProgressMove c0 p1).1, none) := by
  unfold startProgressMove
  simp [h0]

/-- C5 (witness). -/
theorem asyncC5_double_startProgress_witness :
    ((mkByValue 0 : AsyncValueTemplate Nat Nat).m_state ≠ PROGRESS) ∧
    startProgressMove
        (startProgressMove (mkByValue 0 : AsyncValueTemplate Nat Nat) 1).1 2
      = ((startProgressMove (mkByValue 0 : AsyncValueTemplate Nat Nat) 1).1,
          none) :=
  ⟨by decide, (asyncC5_double_startProgress (mkByValue 0) 1 2 (by decide)).2.2.2⟩

/-- C6: on a cell in `PROGRESS` holding instance `p1`, `stopProgress` with a
handle to a different instance `p2` returns `false` and mutates nothing: the
state stays `PROGRESS` and `p1` stays the live progress instance. -/
theorem asyncC6_stopProgress_mismatched_handle {V E : Type}
    (c : AsyncValueTemplate V E) (p1 p2 : Nat)
    (hst : c.m_state = PROGRESS) (hp : c.m_progress = some p1)
    (hne : p2 ≠ p1) :
    stopProgress c (some p2) = (c, false) ∧
    (stopProgress c (some p2)).1.m_state = PROGRESS ∧
    (stopProgress c (some p2)).1.m_progress = some p1 := by
  have h : stopProgress c (some p2) = (c, false) := by
    have hmm : (some p2 : Option Nat) ≠ c.m_progress := by
      rw [hp]
      simp [hne]
    unfold stopProgress
    simp [hmm]
  exact ⟨h, by rw [h]; exact hst, by rw [h]; exact hp⟩

/-- C6 (witness). -/
theorem asyncC6_stopProgress_mismatched_handle_witness :
    ((startProgressMove (mkByValue 0 : AsyncValueTemplate Nat Nat) 1).1.m_state
      = PROGRESS) ∧
    ((startProgressMove (mkByValue 0 : AsyncValueTemplate Nat Nat)
        1).1.m_progress = some 1) ∧
    ((2 : Nat) ≠ 1) ∧
    stopProgress
        ((startProgressMove (mkByValue 0 : AsyncValueTemplate Nat Nat) 1).1)
        (some 2)
      = ((startProgressMove (mkByValue 0 : AsyncValueTemplate Nat Nat) 1).1,
          false) :=
  ⟨by decide, by decide, by decide,
    (asyncC6_stopProgress_mismatched_handle _ 1 2 (by decide) (by decide)
      (by decide)).1⟩

/-- C7: on every well-formed cell, the three-callable `access` invokes exactly
the one callable matching the current state tag, with the current payload,
and never the other two; every two- and one-case overload invokes its
callable only when the expected variant matches and returns whether it
matched. -/
theorem asyncC7_access_dispatch {V E : Type} (c : AsyncValueTemplate V E)
    (hwf : WF c) :
    (c.m_state = VALUE → ∃ v, c.value = some v ∧
      access3 c = [Invoked.onValue v] ∧
      access2 c = ([Invoked.onValue v], true) ∧
      access1 c = ([Invoked.onValue v], true) ∧
      accessError c = ([], false) ∧ accessProgress c = ([], false)) ∧
    (c.m_state = ERROR → ∃ e, c.error = some e ∧
      access3 c = [Invoked.onError e] ∧
      access2 c = ([Invoked.onError e], true) ∧
      access1 c = ([], false) ∧
      accessError c = ([Invoked.onError e], true) ∧
      accessProgress c = ([], false)) ∧
    (c.m_state = PROGRESS → ∃ p, c.m_progress = some p ∧
      access3 c = [Invoked.onProgress p] ∧
      access2 c = ([], false) ∧
      access1 c = ([], false) ∧ accessError c = ([], false) ∧
      accessProgress c = ([Invoked.onProgress p], true)) := by
  obtain ⟨w1, w2, w3⟩ := hwf
  refine ⟨?_, ?_, ?_⟩ <;> intro h
  · obtain ⟨v, hv⟩ := Option.isSome_iff_exists.mp (w1 h)
    exact ⟨v, hv, by simp [access3, h, hv], by simp [access2, h, hv],
      by simp [access1, h, hv], by simp [accessError, h],
      by simp [accessProgress, h]⟩
  · obtain ⟨e, he⟩ := Option.isSome_iff_exists.mp (w2 h)
    exact ⟨e, he, by simp [access3, h, he], by simp [access2, h, he],
      by simp [access1, h], by simp [accessError, h, he],
      by simp [accessProgress, h]⟩
  · obtain ⟨p, hp⟩ := Option.isSome_iff_exists.mp (w3 h)
    exact ⟨p, hp, by simp [access3, h, hp], by simp [access2, h],
      by simp [access1, h], by simp [accessError, h],
      by simp [accessProgress, h, hp]⟩

/-- C7 (witness): the dispatch theorem applied to a cell freshly put in
`PROGRESS`. -/
theorem asyncC7_access_dispatch_witness :
    WF ((startProgressMove (mkByValue 0 : AsyncValueTemplate Nat Nat) 4).1) ∧
    (((startProgressMove (mkByValue 0 : AsyncValueTemplate Nat Nat)
        4).1.m_state = PROGRESS) → ∃ p,
      (startProgressMove (mkByValue 0 : AsyncValueTemplate Nat Nat)
        4).1.m_progress = some p ∧
      access3 ((startProgressMove (mkByValue 0 : AsyncValueTemplate Nat Nat)
        4).1) = [Invoked.onProgress p] ∧
      access2 ((startProgressMove (mkByValue 0 : AsyncValueTemplate Nat Nat)
        4).1) = ([], false) ∧
      access1 ((startProgressMove (mkByValue 0 : AsyncValueTemplate Nat Nat)
        4).1) = ([], false) ∧
      accessError ((startProgressMove (mkByValue 0 : AsyncValueTemplate Nat Nat)
        4).1) = ([], false) ∧
      accessProgress ((startProgressMove
        (mkByValue 0 : AsyncValueTemplate Nat Nat) 4).1)
        = ([Invoked.onProgress p], true)) :=
  ⟨by decide, (asyncC7_access_dispatch _ (by decide)).2.2⟩

/-- C8: on a settled well-formed cell, `wait` returns via the fast path:
no blocking, no waiter registration, and the matching callable is invoked
exactly once; and since the fast path mutates nothing, any number of
repeated calls gives the same non-blocking outcome. -/
theorem asyncC8_wait_settled_fast_path {V E : Type}
    (c c2 : AsyncValueTemplate V E) (wakes : List (AsyncValueTemplate V E))
    (n : Nat) (hwf : WF c) (hs : c.m_state ≠ PROGRESS) :
    waitOnTrace c c2 wakes = some ⟨access3 c, false, false⟩ ∧
    (access3 c).length = 1 ∧
    ∀ o ∈ waitRepeated c c2 wakes n, o = some ⟨access3 c, false, false⟩ := by
  have hacc := access2_settled hs
  have hmain : waitOnTrace c c2 wakes = some ⟨access3 c, false, false⟩ := by
    unfold waitOnTrace
    simp [hacc]
  refine ⟨hmain, access3_length hwf, ?_⟩
  intro o ho
  unfold waitRepeated at ho
  rw [List.eq_of_mem_replicate ho, hmain]

/-- C8 (witness): the fast-path theorem applied to a settled `ERROR` cell
with an empty wakeup trace (`wait` would never block there). -/
theorem asyncC8_wait_settled_fast_path_witness :
    WF (mkByError 9 : AsyncValueTemplate Nat Nat) ∧
    ((mkByError 9 : AsyncValueTemplate Nat Nat).m_state ≠ PROGRESS) ∧
    waitOnTrace (mkByError 9 : AsyncValueTemplate Nat Nat) (mkByError 9) []
      = some ⟨access3 (mkByError 9 : AsyncValueTemplate Nat Nat), false,
          false⟩ :=
  ⟨by decide, by decide,
    (asyncC8_wait_settled_fast_path _ (mkByError 9) [] 3 (by decide)
      (by decide)).1⟩

/-- C10: on a settled cell (`VALUE` or `ERROR`), `stopProgress` with no
handle or with a handle equal to the retained progress instance returns
`true`, clears only the retained progress instance, and leaves the state tag
and the value/error content unchanged. -/
theorem asyncC10_stopProgress_on_settled {V E : Type}
    (c : AsyncValueTemplate V E) (arg : Option Nat)
    (hset : c.m_state = VALUE ∨ c.m_state = ERROR)
    (harg : arg = none ∨ arg = c.m_progress) :
    stopProgress c arg = (⟨c.m_state, c.value, c.error, none⟩, true) ∧
    (stopProgress c arg).1.m_state = c.m_state ∧
    (stopProgress c arg).1.value = c.value ∧
    (stopProgress c arg).1.error = c.error ∧
    (stopProgress c arg).1.m_progress = none ∧
    (stopProgress c arg).2 = true := by
  have hnp : c.m_state ≠ PROGRESS := by
    rcases hset with h | h <;> rw [h] <;> decide
  have h := stopProgress_settled hnp harg
  rw [h]
  exact ⟨rfl, rfl, rfl, rfl, rfl, rfl⟩

/-- C10 (witness): a cell settled by `moveError` after `startProgressMove`
(so it still retains the progress instance), stopped with the matching
handle. -/
theorem asyncC10_stopProgress_on_settled_witness :
    ((moveError ((startProgressMove (mkByValue 0 : AsyncValueTemplate Nat Nat)
        7).1) 3).m_state = VALUE ∨
      (moveError ((startProgressMove (mkByValue 0 : AsyncValueTemplate Nat Nat)
        7).1) 3).m_state = ERROR) ∧
    ((some 7 : Option Nat) = none ∨
      (some 7 : Option Nat) = (moveError ((startProgressMove
        (mkByValue 0 : AsyncValueTemplate Nat Nat) 7).1) 3).m_progress) ∧
    stopProgress
        (moveError ((startProgressMove (mkByValue 0 : AsyncValueTemplate Nat Nat)
          7).1) 3) (some 7)
      = (⟨ERROR, none, some 3, none⟩, true) :=
  ⟨by decide, by decide,
    (asyncC10_stopProgress_on_settled
      (moveError ((startProgressMove (mkByValue 0 : AsyncValueTemplate Nat Nat)
        7).1) 3) (some 7) (by decide) (by decide)).1⟩

/-- C9: for one primary and `k` sub-waiters (`k + 1 = N` threads, `k` within
the range of the `quint16` counter) blocked in `wait` while the state is
`PROGRESS`, a single `moveValue c x` by another thread re-checks as exactly
one value-callable invocation carrying `x` for each woken waiter, and from
the post-`wakeAll` configuration: every interleaving step strictly decreases
the measure (so no execution runs forever — no thread blocks forever), a
non-final configuration always has an enabled step, and every reachable
stuck configuration is full completion — all `k + 1` deliveries performed
and the wait-group torn down (`m_waiter` unpublished) only after the primary
drained all sub-waiters (`subsPending = 0` when it finishes). -/
theorem asyncC9_wait_group_teardown {V E : Type} (c : AsyncValueTemplate V E)
    (x : V) (k : Nat) (hk : k < 65536) :
    access2 (moveValue c x) = ([Invoked.onValue x], true) ∧
    (∀ a b : WaitCfg, WaitStep a b → cfgMeasure b < cfgMeasure a) ∧
    (∀ b : WaitCfg, ReachWait (initCfg k) b → ¬ Stuck b →
      ∃ b2 : WaitCfg, WaitStep b b2) ∧
    (∀ b : WaitCfg, ReachWait (initCfg k) b → Stuck b →
      b.delivered = k + 1 ∧ b.waiterPublished = false ∧
        b.primary = PrimPhase.finished ∧ b.subsPending = 0) := by
  refine ⟨rfl, fun a b h => waitStep_measure h,
    fun b _ h => notStuck_exists_step h, fun b hr hst => ?_⟩
  have hinv := waitInv_reach hk hr
  obtain ⟨hfin, hsp, hdel, hpub⟩ := stuck_final hinv hst
  exact ⟨hdel, hpub, hfin, hsp⟩

/-- C9 (witness): with `N = 3` (one primary, two sub-waiters), a concrete
interleaving — the two sub-waiters run their post-wake sections, then the
primary — reaches the stuck configuration with all three deliveries done and
the wait-group unpublished; the theorem's conclusions hold of it. -/
theorem asyncC9_wait_group_teardown_witness :
    (2 : Nat) < 65536 ∧
    access2 (moveValue (mkByValue 0 : AsyncValueTemplate Nat Nat) 5)
      = ([Invoked.onValue 5], true) ∧
    (WaitCfg.mk PrimPhase.finished 0 0 false 3).delivered = 2 + 1 ∧
    (WaitCfg.mk PrimPhase.finished 0 0 false 3).waiterPublished = false := by
  have h := asyncC9_wait_group_teardown (mkByValue 0 : AsyncValueTemplate Nat Nat)
    5 2 (by decide)
  have hreach : ReachWait (initCfg 2) (WaitCfg.mk PrimPhase.finished 0 0 false 3) := by
    have s1 : WaitStep (initCfg 2)
        (WaitCfg.mk PrimPhase.wokenPending 1 1 true 1) := by decide
    have s2 : WaitStep (WaitCfg.mk PrimPhase.wokenPending 1 1 true 1)
        (WaitCfg.mk PrimPhase.wokenPending 0 0 true 2) := by decide
    have s3 : WaitStep (WaitCfg.mk PrimPhase.wokenPending 0 0 true 2)
        (WaitCfg.mk PrimPhase.finished 0 0 false 3) := by decide
    exact Relation.ReflTransGen.tail
      (Relation.ReflTransGen.tail
        (Relation.ReflTransGen.tail Relation.ReflTransGen.refl s1) s2) s3
  have hstuck : Stuck (WaitCfg.mk PrimPhase.finished 0 0 false 3) := by decide
  have hc := h.2.2.2 _ hreach hstuck
  exact ⟨by decide, h.1, hc.1, hc.2.1⟩
